import Mathlib

/-!
Verification development for the schedule-lookup repository layer of the
`infobus` service: the `Departure` data model (`storage/interfaces.py`),
the cache-aside decorator (`storage/cached_schedule.py`), the Redis cache
provider (`storage/redis_cache.py`), the relational backend
(`storage/postgres_schedule.py`) and the SPARQL backend
(`storage/fuseki_schedule.py`), shallowly embedded in Lean together with
proofs of the behavioural properties claimed for them.
-/

namespace Infobus

/-! ### Basic value types

Python's `datetime.time` guarantees `0 ≤ hour < 24`, `0 ≤ minute < 60`,
`0 ≤ second < 60`; we model it as a plain record plus a validity
predicate carried as a hypothesis where needed. Likewise `datetime.date`
guarantees `1 ≤ year ≤ 9999`, `1 ≤ month ≤ 12`, `1 ≤ day ≤ 31`. -/

structure Time where
  hour : Nat
  minute : Nat
  second : Nat
deriving DecidableEq, Repr

def Time.Valid (t : Time) : Prop :=
  t.hour < 24 ∧ t.minute < 60 ∧ t.second < 60

instance (t : Time) : Decidable t.Valid := by
  unfold Time.Valid; infer_instance

structure Date where
  year : Nat
  month : Nat
  day : Nat
deriving DecidableEq, Repr

def Date.Valid (d : Date) : Prop :=
  0 < d.year ∧ d.year ≤ 9999 ∧ 0 < d.month ∧ d.month ≤ 12 ∧ 0 < d.day ∧ d.day ≤ 31

instance (d : Date) : Decidable d.Valid := by
  unfold Date.Valid; infer_instance

/-- The `Departure` TypedDict of `storage/interfaces.py`. -/
structure Departure where
  route_id : String
  route_short_name : Option String
  route_long_name : Option String
  trip_id : String
  stop_id : String
  headsign : Option String
  direction_id : Option Int
  arrival_time : Option String
  departure_time : Option String
deriving DecidableEq, Repr

/-- The five query parameters of `ScheduleRepository.get_next_departures`. -/
structure Query where
  feed_id : String
  stop_id : String
  service_date : Date
  from_time : Time
  limit : Nat
deriving DecidableEq, Repr

/-- Python exception values that can escape the repository layer. -/
inductive Exn where
  | cacheError
  | connectionError
  | httpError (status : Nat)
  | parseError
  | valueError
deriving DecidableEq, Repr

/-! ### Time and date formatting

`time.strftime("%H%M%S")` / `time.strftime("%H:%M:%S")` /
`date.isoformat()` zero-pad every component to a fixed width; on the
in-range values Python's `time` and `date` types admit, each component
has at most two (resp. four) decimal digits. -/

/-- Two-digit zero-padded decimal rendering of `n` (faithful for `n < 100`). -/
def pad2 (n : Nat) : List Char :=
  [Nat.digitChar (n / 10), Nat.digitChar (n % 10)]

/-- Four-digit zero-padded decimal rendering of `n` (faithful for `n < 10000`). -/
def pad4 (n : Nat) : List Char :=
  [Nat.digitChar (n / 1000), Nat.digitChar (n / 100 % 10),
   Nat.digitChar (n / 10 % 10), Nat.digitChar (n % 10)]

/-- `from_time.strftime("%H%M%S")`. -/
def Time.strftimeCompact (t : Time) : String :=
  ⟨pad2 t.hour ++ pad2 t.minute ++ pad2 t.second⟩

/-- `from_time.strftime("%H:%M:%S")`, also the departure/arrival rendering
used by the relational backend. -/
def Time.strftimeColon (t : Time) : String :=
  ⟨pad2 t.hour ++ (':' :: (pad2 t.minute ++ (':' :: pad2 t.second)))⟩

/-- `service_date.isoformat()` (`YYYY-MM-DD`). -/
def Date.isoformat (d : Date) : String :=
  ⟨pad4 d.year ++ ('-' :: (pad2 d.month ++ ('-' :: pad2 d.day)))⟩

/-! ### The cache key (`CachedScheduleRepository._key`)

The source builds the key from two adjacent f-strings:
```
f"schedule:next_departures:feed={feed_id}:stop={stop_id}:"
f"date={service_date.isoformat()}:time={from_time.strftime('%H%M%S')}:limit={limit}:v1"
```
-/

def cached_key (feed_id stop_id : String) (service_date : Date)
    (from_time : Time) (limit : Nat) : String :=
  ("schedule:next_departures:feed=" ++ feed_id ++ ":stop=" ++ stop_id ++ ":") ++
  ("date=" ++ service_date.isoformat ++ ":time=" ++ from_time.strftimeCompact ++
    ":limit=" ++ toString limit ++ ":v1")

def cached_keyQ (q : Query) : String :=
  cached_key q.feed_id q.stop_id q.service_date q.from_time q.limit

/-! ### Payload serialization (`json.dumps` / `json.loads`)

The decorator stores a `Departure` list in the cache as one serialized
string (`json.dumps(result)`) and revives it with `json.loads`. The
claims about the decorator rely only on the contract of that codec: it
is a deterministic, total, injective encoding of `Departure` lists into
non-empty strings, with a partial inverse that succeeds exactly on
well-formed payloads. We embed it as a concrete executable codec with
exactly those properties (tag-based field encoding rather than literal
JSON syntax; the decorator's control flow is insensitive to the
syntax). -/

/-- Encode a string's characters; every payload character is prefixed by
the tag `'C'` and the encoding ends with the tag `'E'`, so decoding is
unambiguous whatever the payload contains. -/
def encStr : List Char → List Char
  | [] => ['E']
  | c :: cs => 'C' :: c :: encStr cs

def decStr : List Char → Option (List Char × List Char)
  | 'E' :: r => some ([], r)
  | 'C' :: c :: r =>
    match decStr r with
    | some (s, rest) => some (c :: s, rest)
    | none => none
  | _ => none

theorem decStr_encStr (s r : List Char) : decStr (encStr s ++ r) = some (s, r) := by
  induction s with
  | nil => rfl
  | cons c cs ih => simp [encStr, decStr, ih]

def encOptStr : Option (List Char) → List Char
  | none => ['N']
  | some s => 'S' :: encStr s

def decOptStr : List Char → Option (Option (List Char) × List Char)
  | 'N' :: r => some (none, r)
  | 'S' :: r =>
    match decStr r with
    | some (s, rest) => some (some s, rest)
    | none => none
  | _ => none

theorem decOptStr_encOptStr (o : Option (List Char)) (r : List Char) :
    decOptStr (encOptStr o ++ r) = some (o, r) := by
  cases o with
  | none => rfl
  | some s => simp [encOptStr, decOptStr, decStr_encStr]

/-- Unary encoding of a natural number, terminated by `'E'`. -/
def encNat (n : Nat) : List Char :=
  List.replicate n 'U' ++ ['E']

def decNat : List Char → Option (Nat × List Char)
  | 'E' :: r => some (0, r)
  | 'U' :: r =>
    match decNat r with
    | some (n, rest) => some (n + 1, rest)
    | none => none
  | _ => none

theorem decNat_encNat (n : Nat) (r : List Char) :
    decNat (encNat n ++ r) = some (n, r) := by
  induction n with
  | zero => rfl
  | succ k ih => simp [encNat, List.replicate_succ, decNat] at ih ⊢; simp [ih]

def encInt : Int → List Char
  | Int.ofNat n => 'P' :: encNat n
  | Int.negSucc n => 'M' :: encNat n

def decInt : List Char → Option (Int × List Char)
  | 'P' :: r =>
    match decNat r with
    | some (n, rest) => some (Int.ofNat n, rest)
    | none => none
  | 'M' :: r =>
    match decNat r with
    | some (n, rest) => some (Int.negSucc n, rest)
    | none => none
  | _ => none

theorem decInt_encInt (i : Int) (r : List Char) :
    decInt (encInt i ++ r) = some (i, r) := by
  cases i with
  | ofNat n => simp [encInt, decInt, decNat_encNat]
  | negSucc n => simp [encInt, decInt, decNat_encNat]

def encOptInt : Option Int → List Char
  | none => ['N']
  | some i => 'S' :: encInt i

def decOptInt : List Char → Option (Option Int × List Char)
  | 'N' :: r => some (none, r)
  | 'S' :: r =>
    match decInt r with
    | some (i, rest) => some (some i, rest)
    | none => none
  | _ => none

theorem decOptInt_encOptInt (o : Option Int) (r : List Char) :
    decOptInt (encOptInt o ++ r) = some (o, r) := by
  cases o with
  | none => rfl
  | some i => simp [encOptInt, decOptInt, decInt_encInt]

/-- Serialize one `Departure`, field by field in declaration order. -/
def encDep (d : Departure) : List Char :=
  encStr d.route_id.data ++
  (encOptStr (d.route_short_name.map String.data) ++
  (encOptStr (d.route_long_name.map String.data) ++
  (encStr d.trip_id.data ++
  (encStr d.stop_id.data ++
  (encOptStr (d.headsign.map String.data) ++
  (encOptInt d.direction_id ++
  (encOptStr (d.arrival_time.map String.data) ++
  encOptStr (d.departure_time.map String.data))))))))

def decDep (input : List Char) : Option (Departure × List Char) :=
  match decStr input with
  | none => none
  | some (route_id, r1) =>
  match decOptStr r1 with
  | none => none
  | some (rsn, r2) =>
  match decOptStr r2 with
  | none => none
  | some (rln, r3) =>
  match decStr r3 with
  | none => none
  | some (trip_id, r4) =>
  match decStr r4 with
  | none => none
  | some (stop_id, r5) =>
  match decOptStr r5 with
  | none => none
  | some (hs, r6) =>
  match decOptInt r6 with
  | none => none
  | some (dir, r7) =>
  match decOptStr r7 with
  | none => none
  | some (arr, r8) =>
  match decOptStr r8 with
  | none => none
  | some (dep, r9) =>
    some (⟨⟨route_id⟩, rsn.map String.mk, rln.map String.mk, ⟨trip_id⟩, ⟨stop_id⟩,
           hs.map String.mk, dir, arr.map String.mk, dep.map String.mk⟩, r9)

theorem map_mk_map_data (o : Option String) :
    (o.map String.data).map String.mk = o := by
  cases o <;> rfl

theorem decDep_encDep (d : Departure) (r : List Char) :
    decDep (encDep d ++ r) = some (d, r) := by
  obtain ⟨a, b, c, e, f, g, h, i, j⟩ := d
  simp only [encDep, decDep, List.append_assoc, decStr_encStr, decOptStr_encOptStr,
    decOptInt_encOptInt, map_mk_map_data]

/-- Serialize a list of departures: tag `'D'` before each element, `'L'`
to close the list. -/
def encDeps : List Departure → List Char
  | [] => ['L']
  | d :: ds => 'D' :: (encDep d ++ encDeps ds)

/-- Decode a departure list; `fuel` bounds the number of elements (each
element consumes at least one input character, so the input length is
always enough fuel). Fuel keeps the recursion structural, hence
kernel-reducible on concrete payloads. -/
def decDeps : Nat → List Char → Option (List Departure × List Char)
  | _, 'L' :: r => some ([], r)
  | fuel + 1, 'D' :: r =>
    match decDep r with
    | none => none
    | some (d, rest) =>
      match decDeps fuel rest with
      | none => none
      | some (ds, rest') => some (d :: ds, rest')
  | _, _ => none

theorem decDeps_encDeps (l : List Departure) (r : List Char) :
    ∀ fuel, l.length ≤ fuel → decDeps fuel (encDeps l ++ r) = some (l, r) := by
  induction l generalizing r with
  | nil =>
    intro fuel _
    cases fuel <;> rfl
  | cons d ds ih =>
    intro fuel hfuel
    cases fuel with
    | zero => simp at hfuel
    | succ f =>
      rw [show encDeps (d :: ds) ++ r = 'D' :: (encDep d ++ (encDeps ds ++ r)) by
        simp [encDeps]]
      have hf : ds.length ≤ f := by simp at hfuel; omega
      simp [decDeps, decDep_encDep, ih r f hf]

/-- Model of `json.dumps(result)` on a `Departure` list. -/
def json_dumps (l : List Departure) : String :=
  ⟨encDeps l⟩

/-- Model of `json.loads` specialised to `Departure`-list payloads:
succeeds iff the whole string is a well-formed serialized list. -/
def json_loads (s : String) : Option (List Departure) :=
  match decDeps s.data.length s.data with
  | some (l, []) => some l
  | _ => none

theorem encDeps_length (l : List Departure) : l.length ≤ (encDeps l).length := by
  induction l with
  | nil => simp [encDeps]
  | cons d ds ih => simp [encDeps]; omega

theorem json_loads_dumps (l : List Departure) : json_loads (json_dumps l) = some l := by
  have h := decDeps_encDeps l [] (encDeps l).length (encDeps_length l)
  rw [List.append_nil] at h
  simp [json_loads, json_dumps, h]

theorem json_dumps_ne_empty (l : List Departure) : json_dumps l ≠ "" := by
  intro h
  have : (json_dumps l).data = ("" : String).data := by rw [h]
  cases l <;> simp [json_dumps, encDeps] at this

/-! ### The cache-aside decorator (`CachedScheduleRepository`)

A cache provider is a pair of operations over an abstract cache state
`σ` (the external key-value store); either operation may raise. The
wrapped repository is a function from the query to a result or a raised
exception. The decorator's control flow follows
`CachedScheduleRepository.get_next_departures` line by line:

```
cached = self._cache.get(key)          # NOT guarded: an exception propagates
if cached:                             # truthy: neither None nor ""
    try: return json.loads(cached)
    except Exception: pass             # invalid content: fall through
result = self._repo.get_next_departures(...)
try: self._cache.set(key, json.dumps(result), self._ttl)
except Exception: pass                 # best-effort set
return result
```

The returned `Bool` instruments whether the wrapped repository was
invoked (the call-counting stub of the spec's test plan). -/

structure CacheProvider (σ : Type) where
  get : σ → String → Except Exn (Option String)
  set : σ → String → String → Nat → Except Exn σ

/-- `if cached:` followed by `try: return json.loads(cached)`: the value
of a cache hit, `none` when control falls through to the repository. -/
def cacheHit (cached : Option String) : Option (List Departure) :=
  match cached with
  | none => none
  | some s => if s = "" then none else json_loads s

def cached_get_next_departures {σ : Type}
    (repo : Query → Except Exn (List Departure)) (cache : CacheProvider σ)
    (ttl : Nat) (q : Query) (s : σ) :
    Except Exn (List Departure) × σ × Bool :=
  let key := cached_keyQ q
  match cache.get s key with
  | .error e => (.error e, s, false)
  | .ok cached =>
    match cacheHit cached with
    | some l => (.ok l, s, false)
    | none =>
      match repo q with
      | .error e => (.error e, s, true)
      | .ok result =>
        match cache.set s key (json_dumps result) ttl with
        | .error _ => (.ok result, s, true)
        | .ok s' => (.ok result, s', true)

/-- An honest in-memory key-value store: an association list. Used as a
concrete cache provider in witnesses. -/
def listCache : CacheProvider (List (String × String)) where
  get s k := .ok ((s.find? (fun p => p.1 == k)).map Prod.snd)
  set s k v _ := .ok ((k, v) :: s)

/-- A pathological provider whose two operations always raise, as posited
by the spec's cache-failure-tolerance scenario. -/
def raisingCache : CacheProvider Unit where
  get _ _ := .error .cacheError
  set _ _ _ _ := .error .cacheError

/-! ### The Redis cache provider (`RedisCacheProvider`)

`get`/`set` wrap a Redis client whose calls may raise; both absorb every
client exception (`except Exception: return None` / `pass`). The client
is abstracted as a pair of functions that may raise. -/

def redis_get (client_get : String → Except Exn (Option String)) (key : String) :
    Except Exn (Option String) :=
  match client_get key with
  | .ok v => .ok v
  | .error _ => .ok none

def redis_set (client_setex : String → Nat → String → Except Exn Unit)
    (key value : String) (ttl_seconds : Nat) : Except Exn Unit :=
  match client_setex key ttl_seconds value with
  | .ok _ => .ok ()
  | .error _ => .ok ()

/-- The Redis-backed provider, stateless from the process's point of view
(the store lives in the external Redis instance, absorbed into the client
functions). -/
def redisProvider (client_get : String → Except Exn (Option String))
    (client_setex : String → Nat → String → Except Exn Unit) : CacheProvider Unit where
  get _ k := redis_get client_get k
  set s k v ttl :=
    match redis_set client_setex k v ttl with
    | .ok _ => .ok s
    | .error e => .error e

/-! ### The relational backend (`PostgresScheduleRepository`)

The Django model definitions live outside this layer; rows are embedded
per the spec's data model (nullable departure/arrival columns, optional
route names, trips keyed by feed + trip id). The ORM queryset is
embedded as list operations: `filter` keeps exactly the rows matching
all conjuncts, `order_by("departure_time")` sorts on the departure-time
column (relative order of equal keys is whatever the store yields — we
use a stable sort over the table's row sequence), `[:limit]` truncates. -/

structure StopTimeRow where
  feed_id : String
  trip_id : String
  stop_id : String
  arrival_time : Option Time
  departure_time : Option Time
deriving DecidableEq, Repr

structure TripRow where
  feed_id : String
  trip_id : String
  route_id : String
  trip_headsign : Option String
  direction_id : Option Int
deriving DecidableEq, Repr

structure RouteRow where
  feed_id : String
  route_id : String
  route_short_name : Option String
  route_long_name : Option String
deriving DecidableEq, Repr

structure Db where
  stop_times : List StopTimeRow
  trips : List TripRow
  routes : List RouteRow
deriving DecidableEq, Repr

def Time.toSecs (t : Time) : Nat :=
  t.hour * 3600 + t.minute * 60 + t.second

/-- Sort key of `order_by("departure_time")` (nulls are already filtered
out when this is applied). -/
def stKey (st : StopTimeRow) : Nat :=
  (st.departure_time.map Time.toSecs).getD 0

def stLe (a b : StopTimeRow) : Prop := stKey a ≤ stKey b

instance : DecidableRel stLe := fun a b => inferInstanceAs (Decidable (stKey a ≤ stKey b))

instance : IsTotal StopTimeRow stLe := ⟨fun a b => Nat.le_total (stKey a) (stKey b)⟩

instance : IsTrans StopTimeRow stLe := ⟨fun _ _ _ => Nat.le_trans⟩

/-- The per-row normalization of `PostgresScheduleRepository`: resolve the
trip by feed + trip id, then (when a non-empty route id was resolved) the
route by feed + route id; missing trip or route leaves the optional
fields absent / the route id empty. -/
def stopTimeToDeparture (db : Db) (st : StopTimeRow) : Departure :=
  let trip := db.trips.find? (fun tr => tr.feed_id == st.feed_id && tr.trip_id == st.trip_id)
  let route_id_val := match trip with | some tr => tr.route_id | none => ""
  let route :=
    if route_id_val ≠ "" then
      db.routes.find? (fun rt => rt.feed_id == st.feed_id && rt.route_id == route_id_val)
    else none
  { route_id := route_id_val
    route_short_name := route.bind (fun rt => rt.route_short_name)
    route_long_name := route.bind (fun rt => rt.route_long_name)
    trip_id := st.trip_id
    stop_id := st.stop_id
    headsign := trip.bind (fun tr => tr.trip_headsign)
    direction_id := trip.bind (fun tr => tr.direction_id)
    arrival_time := st.arrival_time.map Time.strftimeColon
    departure_time := st.departure_time.map Time.strftimeColon }

/-- `PostgresScheduleRepository.get_next_departures`: filter on feed,
stop, non-null departure time at or after `from_time`; order by
departure time; truncate to `limit`; normalize each row. -/
def postgres_get_next_departures (db : Db) (q : Query) : List Departure :=
  let rows := db.stop_times.filter (fun st =>
    st.feed_id == q.feed_id && st.stop_id == q.stop_id &&
    match st.departure_time with
    | some t => decide (q.from_time.toSecs ≤ t.toSecs)
    | none => false)
  let sorted := rows.insertionSort stLe
  let limited := sorted.take q.limit
  limited.map (stopTimeToDeparture db)

/-! ### The SPARQL backend (`FusekiScheduleRepository`) -/

/-- Codepoint-lexicographic comparison of strings, the SPARQL ordering of
plain literals used by `ORDER BY ?departure` and `FILTER (?departure >= ...)`. -/
def lexLe : List Char → List Char → Bool
  | [], _ => true
  | _ :: _, [] => false
  | a :: as, b :: bs =>
    if a.toNat < b.toNat then true
    else if a.toNat = b.toNat then lexLe as bs
    else false

def strLe (a b : String) : Bool := lexLe a.data b.data

/-- The exact SPARQL text built by `FusekiScheduleRepository`: an
f-string interpolating `feed_id`, `stop_id`, the formatted time and date
and the limit verbatim, with no escaping. -/
def buildQuery (feed_id stop_id time_str date_str : String) (limit : Nat) : String :=
  "\n        PREFIX ex: <http://example.org/gtfs#>\n        SELECT ?route_id ?route_short_name ?route_long_name ?trip_id ?stop_id ?headsign ?direction_id ?arrival ?departure\n        WHERE \x7b\n          ?d a ex:Departure ;\n             ex:feed_id \"" ++
  feed_id ++
  "\" ;\n             ex:stop_id \"" ++
  stop_id ++
  "\" ;\n             ex:trip_id ?trip_id ;\n             ex:arrival_time ?arrival ;\n             ex:departure_time ?departure .\n          OPTIONAL \x7b ?d ex:route_id ?route_id \x7d\n          OPTIONAL \x7b ?d ex:headsign ?headsign \x7d\n          OPTIONAL \x7b ?d ex:direction_id ?direction_id \x7d\n          OPTIONAL \x7b ?d ex:route_short_name ?route_short_name \x7d\n          OPTIONAL \x7b ?d ex:route_long_name ?route_long_name \x7d\n          OPTIONAL \x7b ?d ex:service_date ?svc_date \x7d\n          FILTER ( ?departure >= \"" ++
  time_str ++
  "\" )\n          FILTER ( !BOUND(?svc_date) || ?svc_date = \"" ++
  date_str ++
  "\" )\n        \x7d\n        ORDER BY ?departure\n        LIMIT " ++
  toString limit ++
  "\n        "

/-- One `ex:Departure` resource in the triple store, with the vocabulary
the query expects: mandatory feed/stop/trip/arrival/departure
properties, optional route, headsign, direction, names and service
date. -/
structure FusekiRow where
  feed_id : String
  stop_id : String
  trip_id : String
  arrival_time : String
  departure_time : String
  route_id : Option String
  headsign : Option String
  direction_id : Option String
  route_short_name : Option String
  route_long_name : Option String
  service_date : Option String
deriving DecidableEq, Repr

/-- One row of the SPARQL JSON `results.bindings` array: each selected
variable either bound to a value or absent. -/
structure Binding where
  route_id : Option String
  route_short_name : Option String
  route_long_name : Option String
  trip_id : Option String
  stop_id : Option String
  headsign : Option String
  direction_id : Option String
  arrival : Option String
  departure : Option String
deriving DecidableEq, Repr

def toBinding (r : FusekiRow) : Binding where
  route_id := r.route_id
  route_short_name := r.route_short_name
  route_long_name := r.route_long_name
  trip_id := some r.trip_id
  stop_id := some r.stop_id
  headsign := r.headsign
  direction_id := r.direction_id
  arrival := some r.arrival_time
  departure := some r.departure_time

def fuLe (a b : FusekiRow) : Prop := lexLe a.departure_time.data b.departure_time.data = true

instance : DecidableRel fuLe :=
  fun a b => inferInstanceAs (Decidable (lexLe a.departure_time.data b.departure_time.data = true))

/-- Semantics of the query text built by `buildQuery`, evaluated over a
store of `ex:Departure` resources: the mandatory triple patterns match
exactly the resources carrying all five mandatory properties (the store
rows); the two `FILTER`s keep departures at or after the formatted
`from_time` whose (optional) service date is unbound or equal to the
formatted request date; `ORDER BY ?departure` sorts on the departure
literal; `LIMIT` truncates. -/
def fusekiQueryEval (store : List FusekiRow) (q : Query) : List Binding :=
  let time_str := q.from_time.strftimeColon
  let date_str := q.service_date.isoformat
  let matched := store.filter (fun r =>
    r.feed_id == q.feed_id && r.stop_id == q.stop_id &&
    strLe time_str r.departure_time &&
    (match r.service_date with
     | none => true
     | some sd => sd == date_str))
  let sorted := matched.insertionSort fuLe
  (sorted.take q.limit).map toBinding

/-- Model of Python's `int(...)` on the strings that appear as
`direction_id` bindings: an optional minus sign followed by a non-empty
digit run; anything else raises `ValueError`. -/
def pyDigitsAux : List Char → Nat → Option Nat
  | [], acc => some acc
  | c :: cs, acc =>
    if 48 ≤ c.toNat && c.toNat ≤ 57 then pyDigitsAux cs (acc * 10 + (c.toNat - 48))
    else none

def pyInt (s : String) : Option Int :=
  match s.data with
  | [] => none
  | '-' :: ds =>
    match ds with
    | [] => none
    | _ => (pyDigitsAux ds 0).map (fun n => -(n : Int))
  | ds => (pyDigitsAux ds 0).map (fun n => (n : Int))

/-- The local helper `val(name)` of the parsing loop:
`b.get(name, {}).get("value")`, with the empty string mapped to `None`. -/
def sparqlVal (o : Option String) : Option String :=
  match o with
  | some v => if v == "" then none else some v
  | none => none

/-- The body of the `for b in bindings` loop: build one `Departure` from
one binding row, defaulting missing `route_id`/`trip_id` to `""`,
missing `stop_id` to the queried stop id, and missing optional fields to
absent; `int(val("direction_id"))` raises on a non-numeric value. -/
def depOfBinding (b : Binding) (stop_id : String) (dir : Option Int) : Departure where
  route_id := (sparqlVal b.route_id).getD ""
  route_short_name := sparqlVal b.route_short_name
  route_long_name := sparqlVal b.route_long_name
  trip_id := (sparqlVal b.trip_id).getD ""
  stop_id := (sparqlVal b.stop_id).getD stop_id
  headsign := sparqlVal b.headsign
  direction_id := dir
  arrival_time := sparqlVal b.arrival
  departure_time := sparqlVal b.departure

def bindingToDeparture (b : Binding) (stop_id : String) : Except Exn Departure :=
  match sparqlVal b.direction_id with
  | none => .ok (depOfBinding b stop_id none)
  | some ds =>
    match pyInt ds with
    | some i => .ok (depOfBinding b stop_id (some i))
    | none => .error .valueError

def parseBindings : List Binding → String → Except Exn (List Departure)
  | [], _ => .ok []
  | b :: bs, stop =>
    match bindingToDeparture b stop with
    | .error e => .error e
    | .ok d =>
      match parseBindings bs stop with
      | .error e => .error e
      | .ok ds => .ok (d :: ds)

/-- What `requests.post` delivered for one call: the endpoint was
unreachable (a `requests` exception), or an HTTP response with a status
code and a body that either parses as a SPARQL JSON result set or is
unparsable (`resp.json()` raises). -/
inductive TransportOutcome where
  | unreachable
  | response (status : Nat) (body : Option (List Binding))
deriving DecidableEq, Repr

/-- `resp.raise_for_status()`: raises exactly on 4xx/5xx status codes. -/
def raise_for_status (status : Nat) : Except Exn Unit :=
  if 400 ≤ status && status < 600 then .error (.httpError status) else .ok ()

/-- `FusekiScheduleRepository.get_next_departures`, given what the wire
delivered: propagate unreachability, raise on 4xx/5xx, raise on an
unparsable body, otherwise run the row-parsing loop. -/
def fuseki_get_next_departures (resp : TransportOutcome) (q : Query) :
    Except Exn (List Departure) :=
  match resp with
  | .unreachable => .error .connectionError
  | .response status body =>
    match raise_for_status status with
    | .error e => .error e
    | .ok _ =>
      match body with
      | none => .error .parseError
      | some bindings => parseBindings bindings q.stop_id

/-- The backend run against a healthy, conforming SPARQL endpoint
serving `store`: HTTP 200 with the query's result set as body. -/
def fusekiFromStore (store : List FusekiRow) (q : Query) : Except Exn (List Departure) :=
  fuseki_get_next_departures (.response 200 (some (fusekiQueryEval store q))) q

/-! ### Lemmas about lexicographic ordering and digit rendering -/

theorem lexLe_refl (l : List Char) : lexLe l l = true := by
  induction l with
  | nil => rfl
  | cons c cs ih => simp [lexLe, ih]

theorem lexLe_total (a b : List Char) : lexLe a b = true ∨ lexLe b a = true := by
  induction a generalizing b with
  | nil => left; rfl
  | cons x xs ih =>
    cases b with
    | nil => right; rfl
    | cons y ys =>
      rcases Nat.lt_trichotomy x.toNat y.toNat with h | h | h
      · left; simp [lexLe, h]
      · rcases ih ys with h' | h'
        · left; simp [lexLe, h, h']
        · right; simp [lexLe, h.symm, h']
      · right; simp [lexLe, h]

theorem lexLe_trans {a b c : List Char} (hab : lexLe a b = true) (hbc : lexLe b c = true) :
    lexLe a c = true := by
  induction a generalizing b c with
  | nil => rfl
  | cons x xs ih =>
    cases b with
    | nil => simp [lexLe] at hab
    | cons y ys =>
      cases c with
      | nil => simp [lexLe] at hbc
      | cons z zs =>
        simp only [lexLe] at hab hbc ⊢
        by_cases h1 : x.toNat < y.toNat
        · by_cases h2 : y.toNat < z.toNat
          · rw [if_pos (show x.toNat < z.toNat by omega)]
          · by_cases h2e : y.toNat = z.toNat
            · rw [if_pos (show x.toNat < z.toNat by omega)]
            · rw [if_neg h2, if_neg h2e] at hbc
              simp at hbc
        · by_cases h1e : x.toNat = y.toNat
          · by_cases h2 : y.toNat < z.toNat
            · rw [if_pos (show x.toNat < z.toNat by omega)]
            · by_cases h2e : y.toNat = z.toNat
              · rw [if_neg (show ¬ x.toNat < z.toNat by omega),
                  if_pos (show x.toNat = z.toNat by omega)]
                rw [if_neg h1, if_pos h1e] at hab
                rw [if_neg h2, if_pos h2e] at hbc
                exact ih hab hbc
              · rw [if_neg h2, if_neg h2e] at hbc
                simp at hbc
          · rw [if_neg h1, if_neg h1e] at hab
            simp at hab

theorem lexLe_cons_same (c : Char) (u v : List Char) :
    lexLe (c :: u) (c :: v) = lexLe u v := by
  simp [lexLe]

theorem lexLe_append_left (xs u v : List Char) :
    lexLe (xs ++ u) (xs ++ v) = lexLe u v := by
  induction xs with
  | nil => rfl
  | cons x l ih => simpa [lexLe_cons_same] using ih

theorem lexLe_nil_right (x : Char) (xs : List Char) : lexLe (x :: xs) [] = false := rfl

theorem digitChar_toNat {n : Nat} (h : n < 10) : (Nat.digitChar n).toNat = 48 + n := by
  interval_cases n <;> decide

theorem digitChar_isDigit {n : Nat} (h : n < 10) : (Nat.digitChar n).isDigit = true := by
  interval_cases n <;> decide

theorem lexLe_pad2_lt {a b : Nat} (hb : b < 100) (h : a < b) (u v : List Char) :
    lexLe (pad2 a ++ u) (pad2 b ++ v) = true := by
  have ha10 : a / 10 < 10 := by omega
  have hb10 : b / 10 < 10 := by omega
  simp only [pad2, List.cons_append, List.nil_append, lexLe]
  rw [digitChar_toNat ha10, digitChar_toNat hb10,
    digitChar_toNat (show a % 10 < 10 by omega), digitChar_toNat (show b % 10 < 10 by omega)]
  rcases Nat.lt_or_ge (a / 10) (b / 10) with hd | hd
  · rw [if_pos (by omega)]
  · have hdeq : a / 10 = b / 10 := by omega
    have hm : a % 10 < b % 10 := by omega
    rw [if_neg (by omega), if_pos (by omega), if_pos (by omega)]

theorem lexLe_pad2_le {a b : Nat} (hb : b < 100) (h : a ≤ b) (u : List Char) :
    lexLe (pad2 a ++ u) (pad2 b ++ u) = true := by
  rcases Nat.lt_or_ge a b with hlt | hge
  · exact lexLe_pad2_lt hb hlt u u
  · have : a = b := by omega
    subst this
    rw [lexLe_append_left]
    exact lexLe_refl u

/-- Monotonicity of `%H:%M:%S` rendering: on valid times, the
codepoint-lexicographic order of rendered strings agrees with
chronological order. -/
theorem strftimeColon_mono {t t' : Time} (ht : t.Valid) (ht' : t'.Valid)
    (h : t.toSecs ≤ t'.toSecs) :
    lexLe t.strftimeColon.data t'.strftimeColon.data = true := by
  obtain ⟨hh, hm, hs⟩ := ht
  obtain ⟨hh', hm', hs'⟩ := ht'
  simp only [Time.toSecs] at h
  simp only [Time.strftimeColon]
  rcases Nat.lt_trichotomy t.hour t'.hour with h1 | h1 | h1
  · exact lexLe_pad2_lt (by omega) h1 _ _
  · rw [h1, lexLe_append_left, lexLe_cons_same]
    rcases Nat.lt_trichotomy t.minute t'.minute with h2 | h2 | h2
    · exact lexLe_pad2_lt (by omega) h2 _ _
    · rw [h2, lexLe_append_left, lexLe_cons_same]
      have h3 : t.second ≤ t'.second := by omega
      have h4 := lexLe_pad2_le (show t'.second < 100 by omega) h3 []
      simpa using h4
    · exfalso; omega
  · exfalso; omega

instance : IsTotal FusekiRow fuLe :=
  ⟨fun a b => lexLe_total a.departure_time.data b.departure_time.data⟩

instance : IsTrans FusekiRow fuLe :=
  ⟨fun _ _ _ hab hbc => lexLe_trans hab hbc⟩

/-! ### Lemmas about the SPARQL row-parsing loop -/

theorem parseBindings_ok_forall₂ {bs : List Binding} {stop : String} {l : List Departure}
    (h : parseBindings bs stop = .ok l) :
    List.Forall₂ (fun b d => bindingToDeparture b stop = .ok d) bs l := by
  induction bs generalizing l with
  | nil =>
    simp only [parseBindings, Except.ok.injEq] at h
    subst h
    exact .nil
  | cons b bs ih =>
    unfold parseBindings at h
    cases hbd : bindingToDeparture b stop with
    | error e => rw [hbd] at h; exact Except.noConfusion h
    | ok d =>
      rw [hbd] at h
      cases hrest : parseBindings bs stop with
      | error e => rw [hrest] at h; exact Except.noConfusion h
      | ok ds =>
        rw [hrest] at h
        simp only [Except.ok.injEq] at h
        subst h
        exact .cons hbd (ih hrest)

theorem parseBindings_ok_length {bs : List Binding} {stop : String} {l : List Departure}
    (h : parseBindings bs stop = .ok l) : l.length = bs.length :=
  (parseBindings_ok_forall₂ h).length_eq.symm

theorem forall₂_mem_right {α β : Type} {P : α → β → Prop} {as : List α} {bs : List β}
    (h : List.Forall₂ P as bs) : ∀ {b}, b ∈ bs → ∃ a ∈ as, P a b := by
  induction h with
  | nil => intro b hb; simp at hb
  | cons hpd hrest ih =>
    intro b hb
    rcases List.mem_cons.mp hb with rfl | hb'
    · exact ⟨_, List.mem_cons_self _ _, hpd⟩
    · obtain ⟨a, ha, hp⟩ := ih hb'
      exact ⟨a, List.mem_cons_of_mem _ ha, hp⟩

theorem pairwise_of_forall₂ {α β : Type} {P : α → β → Prop} {R : α → α → Prop}
    {S : β → β → Prop} (hcompat : ∀ a a' b b', P a b → P a' b' → R a a' → S b b') :
    ∀ {as : List α} {bs : List β},
      List.Forall₂ P as bs → List.Pairwise R as → List.Pairwise S bs := by
  intro as bs hf
  induction hf with
  | nil => intro _; exact List.Pairwise.nil
  | cons hpd hrest ih =>
    intro hp
    rcases List.pairwise_cons.mp hp with ⟨hhead, htail⟩
    refine List.Pairwise.cons ?_ (ih htail)
    intro b' hb'
    obtain ⟨a', ha', hp'⟩ := forall₂_mem_right hrest hb'
    exact hcompat _ _ _ _ hpd hp' (hhead a' ha')

theorem bindingToDeparture_fields {b : Binding} {stop : String} {d : Departure}
    (h : bindingToDeparture b stop = .ok d) :
    d.departure_time = sparqlVal b.departure ∧
    d.trip_id = (sparqlVal b.trip_id).getD "" ∧
    d.stop_id = (sparqlVal b.stop_id).getD stop := by
  unfold bindingToDeparture at h
  cases hv : sparqlVal b.direction_id with
  | none =>
    rw [hv] at h
    simp only [Except.ok.injEq] at h
    subst h
    exact ⟨rfl, rfl, rfl⟩
  | some ds =>
    rw [hv] at h
    simp only at h
    cases hp : pyInt ds with
    | none => rw [hp] at h; exact Except.noConfusion h
    | some i =>
      rw [hp] at h
      simp only [Except.ok.injEq] at h
      subst h
      exact ⟨rfl, rfl, rfl⟩

theorem cacheHit_dumps (l : List Departure) : cacheHit (some (json_dumps l)) = some l := by
  simp only [cacheHit]
  rw [if_neg (json_dumps_ne_empty l), json_loads_dumps]

/-! ## Claim theorems -/

/-- Claim C1: if a first call with query `q` succeeded and its result was
cached (the cache now returns the serialized first result under the
query's key, i.e. the TTL has not elapsed), then a second call with the
identical parameters returns the identical `Departure` list, leaves the
cache state untouched, and does not invoke the wrapped repository —
whatever repository the second call wraps (the `false` flag records that
the backend was not called). -/
theorem C1_cached_hit_skips_backend {σ : Type} (cache : CacheProvider σ)
    (repoFirst repoSecond : Query → Except Exn (List Departure)) (ttl : Nat) (q : Query)
    (s₀ s₁ : σ) (l₁ : List Departure) (called : Bool)
    (_hfirst : cached_get_next_departures repoFirst cache ttl q s₀ = (.ok l₁, s₁, called))
    (hcached : cache.get s₁ (cached_keyQ q) = .ok (some (json_dumps l₁))) :
    cached_get_next_departures repoSecond cache ttl q s₁ = (.ok l₁, s₁, false) := by
  simp only [cached_get_next_departures, hcached, cacheHit_dumps]

/-- Witness for C1: a concrete first call against the in-memory cache
populates it; the second call's wrapped repository always raises, yet
the second call returns the first call's list without touching it. -/
theorem C1_cached_hit_skips_backend_witness :
    cached_get_next_departures (fun _ => Except.error Exn.connectionError) listCache 60
        ⟨"F", "S1", ⟨2099, 1, 1⟩, ⟨8, 0, 0⟩, 10⟩
        [(cached_keyQ ⟨"F", "S1", ⟨2099, 1, 1⟩, ⟨8, 0, 0⟩, 10⟩,
          json_dumps [⟨"R1", none, none, "T1", "S1", none, none, none, some "08:06:00"⟩])] =
      (.ok [⟨"R1", none, none, "T1", "S1", none, none, none, some "08:06:00"⟩],
       [(cached_keyQ ⟨"F", "S1", ⟨2099, 1, 1⟩, ⟨8, 0, 0⟩, 10⟩,
         json_dumps [⟨"R1", none, none, "T1", "S1", none, none, none, some "08:06:00"⟩])],
       false) :=
  C1_cached_hit_skips_backend listCache
    (fun _ => .ok [⟨"R1", none, none, "T1", "S1", none, none, none, some "08:06:00"⟩])
    (fun _ => .error .connectionError) 60 ⟨"F", "S1", ⟨2099, 1, 1⟩, ⟨8, 0, 0⟩, 10⟩
    [] _ _ true rfl rfl

/-- Claim C2, counterexample: the claim quantifies over every cache
provider whose `get`/`set` raise. The decorator does not guard
`cache.get`, so with such a provider (and a perfectly working backend)
`get_next_departures` raises the cache exception instead of returning
the backend's list: the claim as stated is false on this code. -/
theorem C2_counterexample_unguarded_cache_get :
    cached_get_next_departures
        (fun _ => .ok [⟨"R1", none, none, "T1", "S1", none, none, none, some "08:06:00"⟩])
        raisingCache 60 ⟨"F", "S1", ⟨2099, 1, 1⟩, ⟨8, 0, 0⟩, 10⟩ () =
      (.error .cacheError, (), false) := rfl

/-- Claim C2 as amended: the failure-absorption lives one level down, in
the bundled cache provider. For every cache client (transport) whose
operations always raise, the decorator composed with the Redis-style
provider (which converts a failing `get` to "absent" and a failing `set`
to a no-op) does not raise and returns exactly the wrapped backend's
list. -/
theorem C2_amended_raising_client_tolerated
    (client_get : String → Except Exn (Option String))
    (client_setex : String → Nat → String → Except Exn Unit)
    (repo : Query → Except Exn (List Departure)) (ttl : Nat) (q : Query) (l : List Departure)
    (hg : ∀ k, ∃ e, client_get k = .error e)
    (hs : ∀ k t v, ∃ e, client_setex k t v = .error e)
    (hrepo : repo q = .ok l) :
    cached_get_next_departures repo (redisProvider client_get client_setex) ttl q () =
      (.ok l, (), true) := by
  obtain ⟨e, he⟩ := hg (cached_keyQ q)
  have hget : (redisProvider client_get client_setex).get () (cached_keyQ q) = .ok none := by
    simp [redisProvider, redis_get, he]
  obtain ⟨e2, he2⟩ := hs (cached_keyQ q) ttl (json_dumps l)
  have hset :
      (redisProvider client_get client_setex).set () (cached_keyQ q) (json_dumps l) ttl =
        .ok () := by
    simp [redisProvider, redis_set, he2]
  simp [cached_get_next_departures, hget, hset, hrepo, cacheHit]

/-- Witness for the amended C2: a concrete always-raising client. -/
theorem C2_amended_raising_client_tolerated_witness :
    cached_get_next_departures
        (fun _ => .ok [⟨"R1", none, none, "T1", "S1", none, none, none, some "08:06:00"⟩])
        (redisProvider (fun _ => .error .cacheError) (fun _ _ _ => .error .cacheError))
        60 ⟨"F", "S1", ⟨2099, 1, 1⟩, ⟨8, 0, 0⟩, 10⟩ () =
      (.ok [⟨"R1", none, none, "T1", "S1", none, none, none, some "08:06:00"⟩], (), true) :=
  C2_amended_raising_client_tolerated _ _ _ 60 ⟨"F", "S1", ⟨2099, 1, 1⟩, ⟨8, 0, 0⟩, 10⟩
    [⟨"R1", none, none, "T1", "S1", none, none, none, some "08:06:00"⟩]
    (fun _ => ⟨.cacheError, rfl⟩) (fun _ _ _ => ⟨.cacheError, rfl⟩) rfl

/-- Claim C9: a cache entry under the correct key that does not
deserialize behaves exactly as a cache miss: `get_next_departures`
neither raises nor returns corrupted output — it calls the wrapped
backend and returns the backend's fresh result. -/
theorem C9_corrupt_cache_entry_is_miss {σ : Type} (cache : CacheProvider σ)
    (repo : Query → Except Exn (List Departure)) (ttl : Nat) (q : Query) (s : σ)
    (junk : String) (l : List Departure)
    (hget : cache.get s (cached_keyQ q) = .ok (some junk))
    (hjunk : json_loads junk = none)
    (hrepo : repo q = .ok l) :
    (cached_get_next_departures repo cache ttl q s).1 = .ok l ∧
    (cached_get_next_departures repo cache ttl q s).2.2 = true := by
  have hhit : cacheHit (some junk) = none := by
    simp only [cacheHit]
    by_cases hj : junk = ""
    · rw [if_pos hj]
    · rw [if_neg hj, hjunk]
  simp only [cached_get_next_departures, hget, hhit, hrepo]
  cases hset : cache.set s (cached_keyQ q) (json_dumps l) ttl <;> simp [hset]

/-- Witness for C9: the cache is seeded with a non-deserializable value
under the correct key; the decorator returns the backend's fresh result. -/
theorem C9_corrupt_cache_entry_is_miss_witness :
    (cached_get_next_departures
        (fun _ => .ok [⟨"R1", none, none, "T1", "S1", none, none, none, some "08:06:00"⟩])
        listCache 60 ⟨"F", "S1", ⟨2099, 1, 1⟩, ⟨8, 0, 0⟩, 10⟩
        [(cached_keyQ ⟨"F", "S1", ⟨2099, 1, 1⟩, ⟨8, 0, 0⟩, 10⟩, "garbage")]).1 =
      .ok [⟨"R1", none, none, "T1", "S1", none, none, none, some "08:06:00"⟩] ∧
    (cached_get_next_departures
        (fun _ => .ok [⟨"R1", none, none, "T1", "S1", none, none, none, some "08:06:00"⟩])
        listCache 60 ⟨"F", "S1", ⟨2099, 1, 1⟩, ⟨8, 0, 0⟩, 10⟩
        [(cached_keyQ ⟨"F", "S1", ⟨2099, 1, 1⟩, ⟨8, 0, 0⟩, 10⟩, "garbage")]).2.2 = true :=
  C9_corrupt_cache_entry_is_miss listCache
    (fun _ => .ok [⟨"R1", none, none, "T1", "S1", none, none, none, some "08:06:00"⟩])
    60 ⟨"F", "S1", ⟨2099, 1, 1⟩, ⟨8, 0, 0⟩, 10⟩
    [(cached_keyQ ⟨"F", "S1", ⟨2099, 1, 1⟩, ⟨8, 0, 0⟩, 10⟩, "garbage")]
    "garbage" [⟨"R1", none, none, "T1", "S1", none, none, none, some "08:06:00"⟩]
    rfl rfl rfl

/-- Claim C8: the cache key is exactly the literal template
`schedule:next_departures:feed=<feed_id>:stop=<stop_id>:date=<YYYY-MM-DD>:time=<HHMMSS>:limit=<n>:v1`,
with the date rendered in ISO `YYYY-MM-DD` form (10 characters, dashes
at positions 4 and 7) and the time as six digits, ending in the version
tag `v1`; being a pure function of the five parameters, identical inputs
produce the identical key. -/
theorem C8_cache_key_exact_format (feed_id stop_id : String) (d : Date) (t : Time) (n : Nat) :
    cached_key feed_id stop_id d t n =
      "schedule:next_departures:feed=" ++ feed_id ++ ":stop=" ++ stop_id ++ ":date=" ++
        d.isoformat ++ ":time=" ++ t.strftimeCompact ++ ":limit=" ++ toString n ++ ":v1" ∧
    (t.Valid →
      t.strftimeCompact.length = 6 ∧ t.strftimeCompact.data.all Char.isDigit = true) ∧
    (d.Valid →
      d.isoformat.length = 10 ∧ d.isoformat.data.get? 4 = some '-' ∧
        d.isoformat.data.get? 7 = some '-') := by
  refine ⟨?_, ?_, ?_⟩
  · simp only [cached_key, String.append_assoc]
    rfl
  · intro ht
    obtain ⟨hh, hm, hs⟩ := ht
    constructor
    · rfl
    · simp only [Time.strftimeCompact, pad2, List.cons_append, List.nil_append,
        List.all_cons, List.all_nil, Bool.and_eq_true]
      refine ⟨digitChar_isDigit (by omega), digitChar_isDigit (by omega),
        digitChar_isDigit (by omega), digitChar_isDigit (by omega),
        digitChar_isDigit (by omega), digitChar_isDigit (by omega), trivial⟩
  · intro _
    refine ⟨rfl, ?_, ?_⟩ <;> rfl

/-- Witness for C8 at a concrete parameter tuple. -/
theorem C8_cache_key_exact_format_witness :
    cached_key "F" "S1" ⟨2099, 1, 1⟩ ⟨8, 30, 0⟩ 10 =
      "schedule:next_departures:feed=" ++ "F" ++ ":stop=" ++ "S1" ++ ":date=" ++
        (⟨2099, 1, 1⟩ : Date).isoformat ++ ":time=" ++
        (⟨8, 30, 0⟩ : Time).strftimeCompact ++ ":limit=" ++ toString 10 ++ ":v1" ∧
    (⟨8, 30, 0⟩ : Time).strftimeCompact.length = 6 ∧
    (⟨2099, 1, 1⟩ : Date).isoformat.length = 10 :=
  have h := C8_cache_key_exact_format "F" "S1" ⟨2099, 1, 1⟩ ⟨8, 30, 0⟩ 10
  ⟨h.1, (h.2.1 (by decide)).1, (h.2.2 (by decide)).1⟩

set_option maxRecDepth 8192

/-- Claim C10: the key template does not escape the `:`/`=` delimiters
inside parameter values, so two distinct parameter tuples collide on the
same key, and within the TTL the decorator answers one query with the
other query\'s cached list: after a first call for
`(feed="F:stop=S1", stop="S2")` populates the cache, the query
`(feed="F", stop="S1:stop=S2")` is answered from that cache entry with
the first query\'s departures, without consulting the backend, although
the backend would return a different list for it. -/
theorem C10_cache_key_delimiter_collision :
    cached_keyQ ⟨"F:stop=S1", "S2", ⟨2099, 1, 1⟩, ⟨8, 0, 0⟩, 5⟩ =
      cached_keyQ ⟨"F", "S1:stop=S2", ⟨2099, 1, 1⟩, ⟨8, 0, 0⟩, 5⟩ ∧
    (⟨"F:stop=S1", "S2", ⟨2099, 1, 1⟩, ⟨8, 0, 0⟩, 5⟩ : Query) ≠
      ⟨"F", "S1:stop=S2", ⟨2099, 1, 1⟩, ⟨8, 0, 0⟩, 5⟩ ∧
    (let q1 : Query := ⟨"F:stop=S1", "S2", ⟨2099, 1, 1⟩, ⟨8, 0, 0⟩, 5⟩
     let q2 : Query := ⟨"F", "S1:stop=S2", ⟨2099, 1, 1⟩, ⟨8, 0, 0⟩, 5⟩
     let d1 : Departure := ⟨"R1", none, none, "T1", "S2", none, none, none, some "08:06:00"⟩
     let d2 : Departure := ⟨"R2", none, none, "T2", "S1:stop=S2", none, none, none,
       some "09:00:00"⟩
     let repo : Query → Except Exn (List Departure) :=
       fun q => if q = q1 then .ok [d1] else .ok [d2]
     let first := cached_get_next_departures repo listCache 60 q1 []
     repo q2 = .ok [d2] ∧
     first.1 = .ok [d1] ∧
     cached_get_next_departures repo listCache 60 q2 first.2.1 =
       (.ok [d1], first.2.1, false) ∧
     [d1] ≠ [d2]) := by
  refine ⟨rfl, by decide, rfl, rfl, rfl, by decide⟩


/-- Claim C6, evaluated at a failing input: the SPARQL backend performs
no sanitization, escaping or parameterization of `feed_id`/`stop_id`:
the identifiers are interpolated verbatim, and two distinct identifier
pairs produce the identical query text, so an identifier value can alter
the structure of the query (injection). This refutes the claim on the
code; per the spec this is a flagged, required hardening the code lacks. -/
theorem C6_identifier_injection_collision :
    buildQuery "F\" ;\n             ex:stop_id \"S1" "S2" "08:00:00" "2099-01-01" 5 =
      buildQuery "F" "S1\" ;\n             ex:stop_id \"S2" "08:00:00" "2099-01-01" 5 ∧
    ("F\" ;\n             ex:stop_id \"S1", "S2") ≠
      ("F", "S1\" ;\n             ex:stop_id \"S2") := by
  refine ⟨rfl, by decide⟩

/-- Claim C7, counterexample: a result row missing every field —
including the primary-key trip id — is NOT skipped: the parsing loop
keeps it, defaulting `trip_id` and `route_id` to `""` and `stop_id` to
the queried stop. The claim\'s "malformed rows are skipped" clause is
false on this code. -/
theorem C7_counterexample_missing_trip_id_kept :
    parseBindings [⟨none, none, none, none, none, none, none, none, none⟩] "S1" =
      .ok [⟨"", none, none, "", "S1", none, none, none, none⟩] ∧
    ([(⟨"", none, none, "", "S1", none, none, none, none⟩ : Departure)]) ≠ [] := by
  refine ⟨rfl, by decide⟩

/-- Claim C7 as amended: no result row is ever skipped — a successful
parse returns exactly one `Departure` per binding row; rows missing
fields (key fields included) are kept with safe defaults: absent
optional fields stay absent, a missing trip id becomes `""`, and a
missing stop id becomes the queried stop id. -/
theorem C7_amended_no_rows_skipped (bs : List Binding) (stop : String) (l : List Departure)
    (h : parseBindings bs stop = .ok l) :
    l.length = bs.length ∧
    (∀ d ∈ l, ∃ b ∈ bs, bindingToDeparture b stop = .ok d) ∧
    (∀ (b : Binding) (d : Departure), bindingToDeparture b stop = .ok d →
      d.trip_id = (sparqlVal b.trip_id).getD "" ∧
      d.stop_id = (sparqlVal b.stop_id).getD stop) := by
  refine ⟨parseBindings_ok_length h, ?_, ?_⟩
  · intro d hd
    exact forall₂_mem_right (parseBindings_ok_forall₂ h) hd
  · intro b d hb
    exact ⟨(bindingToDeparture_fields hb).2.1, (bindingToDeparture_fields hb).2.2⟩

/-- Witness for the amended C7 at a concrete one-row result set. -/
theorem C7_amended_no_rows_skipped_witness :
    ([(⟨"", none, none, "", "S1", none, none, none, none⟩ : Departure)]).length =
      ([(⟨none, none, none, none, none, none, none, none, none⟩ : Binding)]).length :=
  (C7_amended_no_rows_skipped [⟨none, none, none, none, none, none, none, none, none⟩] "S1"
    [⟨"", none, none, "", "S1", none, none, none, none⟩] rfl).1

/-- Claim C4: an unreachable endpoint, a 4xx/5xx response, or an
unparsable result body each surface as a raised error from the SPARQL
backend — never as an empty list — and when the wrapped backend raises
on a cache miss, the cache-aside decorator propagates that very
exception unchanged. -/
theorem C4_backend_failures_surface :
    (∀ q : Query, fuseki_get_next_departures .unreachable q = .error .connectionError) ∧
    (∀ (q : Query) (st : Nat) (body : Option (List Binding)), 400 ≤ st → st < 600 →
      fuseki_get_next_departures (.response st body) q = .error (.httpError st)) ∧
    (∀ (q : Query) (st : Nat), st < 400 →
      fuseki_get_next_departures (.response st none) q = .error .parseError) ∧
    (∀ (q : Query) (resp : TransportOutcome) (e : Exn),
      fuseki_get_next_departures resp q = .error e →
      ∀ l : List Departure, fuseki_get_next_departures resp q ≠ .ok l) ∧
    (∀ (σ : Type) (cache : CacheProvider σ) (s : σ) (ttl : Nat) (q : Query)
      (repo : Query → Except Exn (List Departure)) (e : Exn),
      repo q = .error e → cache.get s (cached_keyQ q) = .ok none →
      cached_get_next_departures repo cache ttl q s = (.error e, s, true)) := by
  refine ⟨fun q => rfl, ?_, ?_, ?_, ?_⟩
  · intro q st body h1 h2
    have hc : (decide (400 ≤ st) && decide (st < 600)) = true := by simp [h1, h2]
    simp [fuseki_get_next_departures, raise_for_status, hc]
  · intro q st h
    have hc : (decide (400 ≤ st) && decide (st < 600)) = false := by
      simp [show ¬ 400 ≤ st by omega]
    simp [fuseki_get_next_departures, raise_for_status, hc]
  · intro q resp e he l hl
    rw [he] at hl
    exact Except.noConfusion hl
  · intro σ cache s ttl q repo e hrepo hget
    simp only [cached_get_next_departures, hget, cacheHit, hrepo]

/-- Witness for C4: the three failure shapes at concrete inputs, and the
decorator propagating a concrete backend error through a cache miss. -/
theorem C4_backend_failures_surface_witness :
    fuseki_get_next_departures .unreachable ⟨"F", "S1", ⟨2099, 1, 1⟩, ⟨8, 0, 0⟩, 10⟩ =
      .error .connectionError ∧
    fuseki_get_next_departures (.response 500 none) ⟨"F", "S1", ⟨2099, 1, 1⟩, ⟨8, 0, 0⟩, 10⟩ =
      .error (.httpError 500) ∧
    fuseki_get_next_departures (.response 200 none) ⟨"F", "S1", ⟨2099, 1, 1⟩, ⟨8, 0, 0⟩, 10⟩ =
      .error .parseError ∧
    cached_get_next_departures (fun _ => .error .connectionError) listCache 60
        ⟨"F", "S1", ⟨2099, 1, 1⟩, ⟨8, 0, 0⟩, 10⟩ [] =
      (.error .connectionError, [], true) :=
  have h := C4_backend_failures_surface
  ⟨h.1 _,
   h.2.1 ⟨"F", "S1", ⟨2099, 1, 1⟩, ⟨8, 0, 0⟩, 10⟩ 500 none (by omega) (by omega),
   h.2.2.1 ⟨"F", "S1", ⟨2099, 1, 1⟩, ⟨8, 0, 0⟩, 10⟩ 200 (by omega),
   h.2.2.2.2 _ listCache [] 60 ⟨"F", "S1", ⟨2099, 1, 1⟩, ⟨8, 0, 0⟩, 10⟩
     (fun _ => .error .connectionError) .connectionError rfl rfl⟩

/-- Claim C5, counterexample: neither backend breaks departure-time ties
by `trip_id` — both order by the departure time alone. With two rows
tied at `08:00:00` stored in the order `T2`, `T1`, both backends return
`T2` before `T1` although `"T1" < "T2"` in codepoint order: the relative
order of tied entries is not ascending `trip_id`. -/
theorem C5_counterexample_no_trip_tiebreak :
    postgres_get_next_departures
        ⟨[⟨"F", "T2", "S1", none, some ⟨8, 0, 0⟩⟩, ⟨"F", "T1", "S1", none, some ⟨8, 0, 0⟩⟩],
          [], []⟩
        ⟨"F", "S1", ⟨2099, 1, 1⟩, ⟨8, 0, 0⟩, 10⟩ =
      [⟨"", none, none, "T2", "S1", none, none, none, some "08:00:00"⟩,
       ⟨"", none, none, "T1", "S1", none, none, none, some "08:00:00"⟩] ∧
    fusekiFromStore
        [⟨"F", "S1", "T2", "08:00:00", "08:00:00", none, none, none, none, none, none⟩,
         ⟨"F", "S1", "T1", "08:00:00", "08:00:00", none, none, none, none, none, none⟩]
        ⟨"F", "S1", ⟨2099, 1, 1⟩, ⟨8, 0, 0⟩, 10⟩ =
      .ok [⟨"", none, none, "T2", "S1", none, none, some "08:00:00", some "08:00:00"⟩,
           ⟨"", none, none, "T1", "S1", none, none, some "08:00:00", some "08:00:00"⟩] ∧
    (lexLe "T1".data "T2".data = true ∧ ("T1" : String) ≠ "T2") := by
  refine ⟨rfl, rfl, by decide, by decide⟩

/-- Claim C5 as amended: when two entries have equal `departure_time`,
their relative order is the order in which the backing store yields the
rows — no `trip_id` tie-break is applied by either backend. Whatever two
(non-empty) trip ids the tied rows carry, and in whichever order, the
output lists them exactly in row order. -/
theorem C5_amended_ties_follow_row_order (tripA tripB : String)
    (hA : tripA ≠ "") (hB : tripB ≠ "") :
    (postgres_get_next_departures
        ⟨[⟨"F", tripA, "S1", none, some ⟨8, 0, 0⟩⟩, ⟨"F", tripB, "S1", none, some ⟨8, 0, 0⟩⟩],
          [], []⟩
        ⟨"F", "S1", ⟨2099, 1, 1⟩, ⟨8, 0, 0⟩, 10⟩).map Departure.trip_id = [tripA, tripB] ∧
    fusekiFromStore
        [⟨"F", "S1", tripA, "08:00:00", "08:00:00", none, none, none, none, none, none⟩,
         ⟨"F", "S1", tripB, "08:00:00", "08:00:00", none, none, none, none, none, none⟩]
        ⟨"F", "S1", ⟨2099, 1, 1⟩, ⟨8, 0, 0⟩, 10⟩ =
      .ok [⟨"", none, none, tripA, "S1", none, none, some "08:00:00", some "08:00:00"⟩,
           ⟨"", none, none, tripB, "S1", none, none, some "08:00:00", some "08:00:00"⟩] := by
  have vA : sparqlVal (some tripA) = some tripA := by simp [sparqlVal, hA]
  have vB : sparqlVal (some tripB) = some tripB := by simp [sparqlVal, hB]
  constructor
  · rfl
  · simp only [fusekiFromStore, fuseki_get_next_departures, raise_for_status]
    rw [show fusekiQueryEval
        [⟨"F", "S1", tripA, "08:00:00", "08:00:00", none, none, none, none, none, none⟩,
         ⟨"F", "S1", tripB, "08:00:00", "08:00:00", none, none, none, none, none, none⟩]
        ⟨"F", "S1", ⟨2099, 1, 1⟩, ⟨8, 0, 0⟩, 10⟩ =
      [toBinding ⟨"F", "S1", tripA, "08:00:00", "08:00:00", none, none, none, none, none, none⟩,
       toBinding ⟨"F", "S1", tripB, "08:00:00", "08:00:00", none, none, none, none, none,
         none⟩] from rfl]
    simp [fusekiFromStore, fuseki_get_next_departures, raise_for_status, parseBindings,
      bindingToDeparture, toBinding, depOfBinding, vA, vB, sparqlVal]
    rw [if_neg hA, if_neg hB]
    exact ⟨rfl, rfl⟩

/-- Witness for the amended C5 at concrete tied trip ids. -/
theorem C5_amended_ties_follow_row_order_witness :
    (postgres_get_next_departures
        ⟨[⟨"F", "T9", "S1", none, some ⟨8, 0, 0⟩⟩, ⟨"F", "T3", "S1", none, some ⟨8, 0, 0⟩⟩],
          [], []⟩
        ⟨"F", "S1", ⟨2099, 1, 1⟩, ⟨8, 0, 0⟩, 10⟩).map Departure.trip_id = ["T9", "T3"] ∧
    fusekiFromStore
        [⟨"F", "S1", "T9", "08:00:00", "08:00:00", none, none, none, none, none, none⟩,
         ⟨"F", "S1", "T3", "08:00:00", "08:00:00", none, none, none, none, none, none⟩]
        ⟨"F", "S1", ⟨2099, 1, 1⟩, ⟨8, 0, 0⟩, 10⟩ =
      .ok [⟨"", none, none, "T9", "S1", none, none, some "08:00:00", some "08:00:00"⟩,
           ⟨"", none, none, "T3", "S1", none, none, some "08:00:00", some "08:00:00"⟩] :=
  C5_amended_ties_follow_row_order "T9" "T3" (by decide) (by decide)

/-! ### Invariant machinery for C3 -/

/-- Output ordering relation: ascending `departure_time` (as the
`HH:MM:SS` strings both backends emit), comparing codepoint-wise. -/
def depLe (d d' : Departure) : Prop :=
  strLe (d.departure_time.getD "") (d'.departure_time.getD "") = true

theorem sparqlVal_some_ne {x : String} (hx : x ≠ "") : sparqlVal (some x) = some x := by
  simp [sparqlVal, hx]

theorem strLe_time_ne_empty {t : Time} {s : String} (h : strLe t.strftimeColon s = true) :
    s ≠ "" := by
  intro hs
  subst hs
  simp [strLe, Time.strftimeColon, pad2, List.cons_append, lexLe] at h

theorem postgres_filter_facts {q : Query} {st : StopTimeRow}
    (h : (st.feed_id == q.feed_id && st.stop_id == q.stop_id &&
      match st.departure_time with
      | some t => decide (q.from_time.toSecs ≤ t.toSecs)
      | none => false) = true) :
    ∃ t, st.departure_time = some t ∧ q.from_time.toSecs ≤ t.toSecs := by
  rw [Bool.and_eq_true, Bool.and_eq_true] at h
  obtain ⟨⟨-, -⟩, h3⟩ := h
  cases hdt : st.departure_time with
  | none => rw [hdt] at h3; simp at h3
  | some t =>
    rw [hdt] at h3
    simp at h3
    exact ⟨t, rfl, h3⟩

theorem fuseki_filter_facts {q : Query} {r : FusekiRow}
    (h : (r.feed_id == q.feed_id && r.stop_id == q.stop_id &&
      strLe q.from_time.strftimeColon r.departure_time &&
      (match r.service_date with
       | none => true
       | some sd => sd == q.service_date.isoformat)) = true) :
    strLe q.from_time.strftimeColon r.departure_time = true := by
  simp only [Bool.and_eq_true] at h
  exact h.1.2

theorem map_rows_pairwise (db : Db) (xs : List StopTimeRow)
    (hvalid : ∀ st ∈ xs, ∃ t, st.departure_time = some t ∧ t.Valid)
    (hsorted : List.Pairwise stLe xs) :
    List.Pairwise depLe (xs.map (stopTimeToDeparture db)) := by
  rw [List.pairwise_map]
  refine hsorted.imp_of_mem ?_
  intro a b ha hb hab
  obtain ⟨ta, hta, hva⟩ := hvalid a ha
  obtain ⟨tb, htb, hvb⟩ := hvalid b hb
  have e1 : (stopTimeToDeparture db a).departure_time = some ta.strftimeColon := by
    simp [stopTimeToDeparture, hta]
  have e2 : (stopTimeToDeparture db b).departure_time = some tb.strftimeColon := by
    simp [stopTimeToDeparture, htb]
  have hsec : ta.toSecs ≤ tb.toSecs := by
    unfold stLe stKey at hab
    rw [hta, htb] at hab
    simpa using hab
  unfold depLe strLe
  rw [e1, e2, Option.getD_some, Option.getD_some]
  exact strftimeColon_mono hva hvb hsec

/-- Claim C3: for positive `limit`, each backend returns at most `limit`
entries, ordered by ascending `departure_time`, and no returned entry
has an absent `departure_time` (the relational backend filters null
departure times at the query boundary; the SPARQL backend only matches
resources whose bound departure passed the non-empty time filter). For
the relational backend the stored times are Python `datetime.time`
values, hence in-range. -/
theorem C3_result_list_invariants :
    (∀ (db : Db) (q : Query),
      0 < q.limit →
      (∀ st ∈ db.stop_times, ∀ t : Time, st.departure_time = some t → t.Valid) →
      (postgres_get_next_departures db q).length ≤ q.limit ∧
      List.Pairwise depLe (postgres_get_next_departures db q) ∧
      ∀ d ∈ postgres_get_next_departures db q, d.departure_time ≠ none) ∧
    (∀ (store : List FusekiRow) (q : Query) (l : List Departure),
      0 < q.limit →
      fusekiFromStore store q = .ok l →
      l.length ≤ q.limit ∧ List.Pairwise depLe l ∧ ∀ d ∈ l, d.departure_time ≠ none) := by
  constructor
  · intro db q _ hvalid
    simp only [postgres_get_next_departures]
    refine ⟨?_, ?_, ?_⟩
    · rw [List.length_map]
      exact List.length_take_le _ _
    · apply map_rows_pairwise
      · intro st hst
        have h1 := List.take_subset _ _ hst
        rw [List.mem_insertionSort] at h1
        have hp := List.of_mem_filter h1
        obtain ⟨t, hts, -⟩ := postgres_filter_facts hp
        exact ⟨t, hts, hvalid st (List.mem_of_mem_filter h1) t hts⟩
      · exact List.Pairwise.sublist (List.take_sublist _ _) (List.sorted_insertionSort stLe _)
    · intro d hd
      rw [List.mem_map] at hd
      obtain ⟨st, hst, rfl⟩ := hd
      have h1 := List.take_subset _ _ hst
      rw [List.mem_insertionSort] at h1
      have hp := List.of_mem_filter h1
      obtain ⟨t, hts, -⟩ := postgres_filter_facts hp
      simp [stopTimeToDeparture, hts]
  · intro store q l _ hok
    have hok' : parseBindings (fusekiQueryEval store q) q.stop_id = .ok l := hok
    have hf2 := parseBindings_ok_forall₂ hok'
    refine ⟨?_, ?_, ?_⟩
    · rw [parseBindings_ok_length hok']
      show (fusekiQueryEval store q).length ≤ q.limit
      simp only [fusekiQueryEval]
      rw [List.length_map]
      exact List.length_take_le _ _
    · have hcompat : ∀ b b' d d',
          bindingToDeparture b q.stop_id = .ok d →
          bindingToDeparture b' q.stop_id = .ok d' →
          (∃ x y, b.departure = some x ∧ x ≠ "" ∧ b'.departure = some y ∧ y ≠ "" ∧
            lexLe x.data y.data = true) →
          depLe d d' := by
        intro b b' d d' hd hd' hexy
        obtain ⟨x, y, hx, hxne, hy, hyne, hxy⟩ := hexy
        have e1 := (bindingToDeparture_fields hd).1
        have e2 := (bindingToDeparture_fields hd').1
        unfold depLe strLe
        rw [e1, e2, hx, hy, sparqlVal_some_ne hxne, sparqlVal_some_ne hyne,
          Option.getD_some, Option.getD_some]
        exact hxy
      refine pairwise_of_forall₂ hcompat hf2 ?_
      simp only [fusekiQueryEval]
      rw [List.pairwise_map]
      refine List.Pairwise.imp_of_mem ?_
        (List.Pairwise.sublist (List.take_sublist _ _) (List.sorted_insertionSort fuLe _))
      intro r r' hr hr' hrr
      have h1 := List.take_subset _ _ hr
      rw [List.mem_insertionSort] at h1
      have h1' := List.take_subset _ _ hr'
      rw [List.mem_insertionSort] at h1'
      have hp := List.of_mem_filter h1
      have hp' := List.of_mem_filter h1'
      have hne := strLe_time_ne_empty (fuseki_filter_facts hp)
      have hne' := strLe_time_ne_empty (fuseki_filter_facts hp')
      exact ⟨r.departure_time, r'.departure_time, rfl, hne, rfl, hne', hrr⟩
    · intro d hd
      obtain ⟨b, hb, hbd⟩ := forall₂_mem_right hf2 hd
      simp only [fusekiQueryEval] at hb
      rw [List.mem_map] at hb
      obtain ⟨r, hr, rfl⟩ := hb
      have h1 := List.take_subset _ _ hr
      rw [List.mem_insertionSort] at h1
      have hp := List.of_mem_filter h1
      have hne := strLe_time_ne_empty (fuseki_filter_facts hp)
      have e := (bindingToDeparture_fields hbd).1
      rw [e, show (toBinding r).departure = some r.departure_time from rfl,
        sparqlVal_some_ne hne]
      simp

/-- Witness for C3 at a concrete one-row store for each backend. -/
theorem C3_result_list_invariants_witness :
    (postgres_get_next_departures ⟨[⟨"F", "T1", "S1", none, some ⟨8, 6, 0⟩⟩], [], []⟩
        ⟨"F", "S1", ⟨2099, 1, 1⟩, ⟨8, 0, 0⟩, 10⟩).length ≤ 10 ∧
    ([(⟨"", none, none, "T1", "S1", none, none, some "08:05:00", some "08:06:00"⟩ :
        Departure)]).length ≤ 10 :=
  have h := C3_result_list_invariants
  ⟨(h.1 ⟨[⟨"F", "T1", "S1", none, some ⟨8, 6, 0⟩⟩], [], []⟩
      ⟨"F", "S1", ⟨2099, 1, 1⟩, ⟨8, 0, 0⟩, 10⟩ (by decide)
      (by
        intro st hst t ht
        simp at hst
        subst hst
        simp at ht
        rw [← ht]
        decide)).1,
   (h.2 [⟨"F", "S1", "T1", "08:05:00", "08:06:00", none, none, none, none, none, none⟩]
      ⟨"F", "S1", ⟨2099, 1, 1⟩, ⟨8, 0, 0⟩, 10⟩
      [⟨"", none, none, "T1", "S1", none, none, some "08:05:00", some "08:06:00"⟩]
      (by decide) rfl).1⟩

end Infobus
